import Mathlib

/-!
Verification development for `generar_articulos_blog_v2.py`: a shallow
embedding of the blog-article generation pipeline (outline extraction,
context windowing, content-addressed cache, quality gate and the
per-item orchestration loop), together with theorems settling the
specification claims about it.

Modelling conventions:
* Python strings are modelled as Lean `String` (a list of characters);
  the Python whitespace class `\s`, `.strip()`, `.splitlines()` and the
  word class `\w` are modelled over their ASCII parts (the documents and
  markers involved are ASCII apart from accented letters, which none of
  the character classes treat specially in the relevant positions).
* `sqlite` posts table: a list of rows; the `date` column (wall-clock
  `now_iso()`) carries no information relevant to any claim and is
  omitted from the row model.
* The cache directory: an association list from the cache file name
  (the 24-hex-digit stem plus ".json") to the decoded record; the
  fields `generated_at` and `ollama_url` (wall clock / transport) are
  omitted.  JSON (de)serialisation is assumed faithful, so the
  `except`-guard around cache reads never fires in the model.
* The Ollama transport (`ollama_call` retries, timeouts) is abstracted
  as a total generation oracle `system → user → content`; its internal
  retry loop is outside every claim under scrutiny.
-/

namespace Blog

/-- ASCII part of Python's whitespace class `\s` (also what `str.strip`
removes). -/
def pyIsSpace (c : Char) : Bool :=
  c = ' ' || c = '\t' || c = '\n' || c = '\r' || c = '\x0b' || c = '\x0c'

/-- Python `str.strip()` on a character list. -/
def pyStripL (l : List Char) : List Char :=
  ((l.dropWhile pyIsSpace).reverse.dropWhile pyIsSpace).reverse

/-- Python `str.strip()`. -/
def pyStrip (s : String) : String := ⟨pyStripL s.data⟩

/-- Python `str.rstrip()`. -/
def pyRstrip (s : String) : String := ⟨(s.data.reverse.dropWhile pyIsSpace).reverse⟩

/-- Python `str.startswith`. -/
def pyStartsWith (s pre : String) : Bool := pre.data.isPrefixOf s.data

/-- Membership test for `needle in hay` on character lists. -/
def pyContainsL (n : List Char) : List Char → Bool
  | [] => n.isEmpty
  | c :: rest => n.isPrefixOf (c :: rest) || pyContainsL n rest

/-- Python `needle in hay` for strings. -/
def pyContains (needle hay : String) : Bool := pyContainsL needle.data hay.data

/-- Python `str.lower()` (ASCII letters; the section markers compared
case-insensitively are ASCII). -/
def pyLower (s : String) : String := ⟨s.data.map Char.toLower⟩

/-- One fused pass for `s.replace("\r\n", "\n").replace("\r", "\n")`
(the two sequential replacements have exactly this effect). -/
def normalizeL : List Char → List Char
  | [] => []
  | '\r' :: '\n' :: rest => '\n' :: normalizeL rest
  | '\r' :: rest => '\n' :: normalizeL rest
  | c :: rest => c :: normalizeL rest

/-- `normalize_newlines` from the source. -/
def normalize_newlines (s : String) : String := ⟨normalizeL s.data⟩

/-- Worker for `str.splitlines()`: accumulates the current line in
reverse.  A trailing break produces no final empty line. -/
def splitlinesGo : List Char → List Char → List String
  | [], acc => if acc.isEmpty then [] else [⟨acc.reverse⟩]
  | '\r' :: '\n' :: rest, acc => ⟨acc.reverse⟩ :: splitlinesGo rest []
  | c :: rest, acc =>
    if c = '\n' || c = '\r' || c = '\x0b' || c = '\x0c' then
      ⟨acc.reverse⟩ :: splitlinesGo rest []
    else
      splitlinesGo rest (c :: acc)

/-- Python `str.splitlines()` over the line-break characters that can
occur in this pipeline (`\n`, `\r`, `\r\n`, `\x0b`, `\x0c`). -/
def pySplitlines (s : String) : List String := splitlinesGo s.data []

/-! SHA-256, as `hashlib.sha256` computes it, over natural numbers with
explicit reduction mod 2^32 (words) and mod 256 (bytes). -/

/-- UTF-8 encoding of one character, as `str.encode("utf-8")` produces it. -/
def utf8EncodeChar (c : Char) : List Nat :=
  let n := c.toNat
  if n < 128 then [n]
  else if n < 2048 then [192 + n / 64, 128 + n % 64]
  else if n < 65536 then [224 + n / 4096, 128 + n / 64 % 64, 128 + n % 64]
  else [240 + n / 262144, 128 + n / 4096 % 64, 128 + n / 64 % 64, 128 + n % 64]

/-- UTF-8 encoding of a string as a byte list. -/
def utf8Bytes : List Char → List Nat
  | [] => []
  | c :: rest => utf8EncodeChar c ++ utf8Bytes rest

/-- Reduction of a natural number to a 32-bit word. -/
def w32 (n : Nat) : Nat := n % 4294967296

/-- Right rotation of a 32-bit word by `k` positions. -/
def rotr (k x : Nat) : Nat := w32 (x / 2 ^ k + x % 2 ^ k * 2 ^ (32 - k))

/-- SHA-256 big sigma-0 on the working variable `a`. -/
def bsig0 (x : Nat) : Nat := rotr 2 x ^^^ rotr 13 x ^^^ rotr 22 x

/-- SHA-256 big sigma-1 on the working variable `e`. -/
def bsig1 (x : Nat) : Nat := rotr 6 x ^^^ rotr 11 x ^^^ rotr 25 x

/-- SHA-256 small sigma-0 of the message schedule. -/
def ssig0 (x : Nat) : Nat := rotr 7 x ^^^ rotr 18 x ^^^ x / 8

/-- SHA-256 small sigma-1 of the message schedule. -/
def ssig1 (x : Nat) : Nat := rotr 17 x ^^^ rotr 19 x ^^^ x / 1024

/-- SHA-256 choice function. -/
def shaCh (e f g : Nat) : Nat := e &&& f ^^^ (e ^^^ 4294967295) &&& g

/-- SHA-256 majority function. -/
def shaMaj (a b c : Nat) : Nat := a &&& b ^^^ a &&& c ^^^ b &&& c

/-- SHA-256 round constants (FIPS 180-4, written in decimal). -/
def shaK : List Nat :=
  [1116352408, 1899447441, 3049323471, 3921009573, 961987163, 1508970993,
   2453635748, 2870763221, 3624381080, 310598401, 607225278, 1426881987,
   1925078388, 2162078206, 2614888103, 3248222580, 3835390401, 4022224774,
   264347078, 604807628, 770255983, 1249150122, 1555081692, 1996064986,
   2554220882, 2821834349, 2952996808, 3210313671, 3336571891, 3584528711,
   113926993, 338241895, 666307205, 773529912, 1294757372, 1396182291,
   1695183700, 1986661051, 2177026350, 2456956037, 2730485921, 2820302411,
   3259730800, 3345764771, 3516065817, 3600352804, 4094571909, 275423344,
   430227734, 506948616, 659060556, 883997877, 958139571, 1322822218,
   1537002063, 1747873779, 1955562222, 2024104815, 2227730452, 2361852424,
   2428436474, 2756734187, 3204031479, 3329325298]

/-- SHA-256 initial hash value (FIPS 180-4, written in decimal). -/
def shaH0 : List Nat :=
  [1779033703, 3144134277, 1013904242, 2773480762, 1359893119, 2600822924,
   528734635, 1541459225]

/-- Big-endian 8-byte encoding of the message bit length. -/
def be64 (n : Nat) : List Nat :=
  [n / 2 ^ 56 % 256, n / 2 ^ 48 % 256, n / 2 ^ 40 % 256, n / 2 ^ 32 % 256,
   n / 2 ^ 24 % 256, n / 2 ^ 16 % 256, n / 2 ^ 8 % 256, n % 256]

/-- SHA-256 padding: a 0x80 byte, zeros to 56 mod 64, then the bit length. -/
def sha256pad (msg : List Nat) : List Nat :=
  let L := msg.length
  msg ++ 128 :: List.replicate ((119 - L % 64) % 64) 0 ++ be64 (8 * L)

/-- Big-endian packing of a 64-byte block into 16 words. -/
def bytesToWords : List Nat → List Nat
  | b0 :: b1 :: b2 :: b3 :: rest =>
    (b0 * 16777216 + b1 * 65536 + b2 * 256 + b3) :: bytesToWords rest
  | _ => []

/-- Big-endian unpacking of a word into 4 bytes. -/
def wordBytes (w : Nat) : List Nat :=
  [w / 16777216 % 256, w / 65536 % 256, w / 256 % 256, w % 256]

/-- Big-endian unpacking of a word list into bytes. -/
def wordsToBytes : List Nat → List Nat
  | [] => []
  | w :: rest => wordBytes w ++ wordsToBytes rest

/-- Extension of the 16 packed words to the 64-entry message schedule. -/
def shaSchedule (w : List Nat) : List Nat :=
  (List.range 48).foldl
    (fun ws i =>
      let t := i + 16
      ws ++ [w32 (ssig1 (ws.getD (t - 2) 0) + ws.getD (t - 7) 0 +
                  ssig0 (ws.getD (t - 15) 0) + ws.getD (t - 16) 0)])
    w

/-- One SHA-256 round on the working state `[a, b, c, d, e, f, g, h]`. -/
def shaRound (w : List Nat) (st : List Nat) (t : Nat) : List Nat :=
  let a := st.getD 0 0
  let b := st.getD 1 0
  let c := st.getD 2 0
  let d := st.getD 3 0
  let e := st.getD 4 0
  let f := st.getD 5 0
  let g := st.getD 6 0
  let h := st.getD 7 0
  let T1 := w32 (h + bsig1 e + shaCh e f g + shaK.getD t 0 + w.getD t 0)
  let T2 := w32 (bsig0 a + shaMaj a b c)
  [w32 (T1 + T2), a, b, c, w32 (d + T1), e, f, g]

/-- Compression of one 64-byte block into the hash state. -/
def shaCompress (hs : List Nat) (block : List Nat) : List Nat :=
  let w := shaSchedule (bytesToWords block)
  let st := (List.range 64).foldl (shaRound w) hs
  (hs.zip st).map fun p => w32 (p.1 + p.2)

/-- Block-by-block compression of the padded message; the fuel (the
message length bounds the block count) keeps the recursion structural,
so that it reduces inside `decide`. -/
def shaBlocksGo : Nat → List Nat → List Nat → List Nat
  | _, hs, [] => hs
  | 0, hs, _ => hs
  | fuel + 1, hs, l => shaBlocksGo fuel (shaCompress hs (l.take 64)) (l.drop 64)

/-- SHA-256 digest (32 bytes) of a byte message. -/
def sha256bytes (msg : List Nat) : List Nat :=
  wordsToBytes (shaBlocksGo (sha256pad msg).length shaH0 (sha256pad msg))

/-- Lowercase hexadecimal digit for a value below 16. -/
def hexDigit (n : Nat) : Char :=
  if n < 10 then Char.ofNat (48 + n) else Char.ofNat (87 + n)

/-- Lowercase hexadecimal rendering of a byte list. -/
def bytesToHex : List Nat → List Char
  | [] => []
  | b :: rest => hexDigit (b / 16) :: hexDigit (b % 16) :: bytesToHex rest

/-- Model of `hashlib.sha256(s.encode("utf-8")).hexdigest()`. -/
def sha256hex (s : String) : String := ⟨bytesToHex (sha256bytes (utf8Bytes s.data))⟩

/-! Heading recognition.  The source matches lines against
`^\s*#{n}\s+(.+?)\s*$`: optional whitespace, exactly the heading marker,
at least one whitespace character, then a non-empty remainder; the
captured group, once stripped, is the remainder without surrounding
whitespace (empty when the remainder is all whitespace, which the regex
accepts as long as it is at least two characters). -/

/-- Match of `re.match(r"^\s*#{n}\s+(.+?)\s*$", line)`, returning the
stripped captured group. -/
def matchHeading (n : Nat) (line : String) : Option String :=
  let rest := line.data.dropWhile pyIsSpace
  if rest.take n = List.replicate n '#' then
    match rest.drop n with
    | c :: _ :: _ => if pyIsSpace c then some ⟨pyStripL (rest.drop n)⟩ else none
    | _ => none
  else none

/-- Match of `re.match(r"^\s*#{1,2}\s+", line)`: the break condition of
the context windower (a level-1 or level-2 heading line). -/
def isBreakHeading (line : String) : Bool :=
  match line.data.dropWhile pyIsSpace with
  | '#' :: '#' :: c :: _ => pyIsSpace c
  | '#' :: c :: _ => pyIsSpace c
  | _ => false

/-! Title normalisation: `strip_numbering_from_h3`. -/

/-- Keywords of `^(lecci[oó]n|lesson|tema|cap[ií]tulo|unidad)` (no keyword
is a prefix of another, so alternation order is immaterial). -/
def titleKeywords : List (List Char) :=
  ["lección".data, "leccion".data, "lesson".data, "tema".data,
   "capítulo".data, "capitulo".data, "unidad".data]

/-- Case-insensitive keyword-prefix removal followed by `\s*`, as in
`re.sub(r"^(lecci[oó]n|lesson|tema|cap[ií]tulo|unidad)\s*", "", t, flags=I)`. -/
def stripKeywordPrefix (l : List Char) : List Char :=
  match titleKeywords.find? (fun kw => (l.take kw.length).map Char.toLower = kw) with
  | some kw => (l.drop kw.length).dropWhile pyIsSpace
  | none => l

/-- Up to `k` repetitions of `[\.\-]\d+` consumed greedily. -/
def stripOrdinalGroups : Nat → List Char → List Char
  | 0, l => l
  | k + 1, l =>
    match l with
    | c :: rest =>
      if (c = '.' || c = '-') && rest.takeWhile Char.isDigit ≠ [] then
        stripOrdinalGroups k (rest.dropWhile Char.isDigit)
      else c :: rest
    | [] => []

/-- Removal of `^\s*\d+(?:[\.\-]\d+){0,6}\s*[\)\.\-–—:]*\s*` when it
matches (it matches exactly when a digit follows the leading whitespace). -/
def stripNumberingPrefix (l : List Char) : List Char :=
  let l1 := l.dropWhile pyIsSpace
  if l1.takeWhile Char.isDigit = [] then l
  else
    let l2 := stripOrdinalGroups 6 (l1.dropWhile Char.isDigit)
    let l3 := (l2.dropWhile pyIsSpace).dropWhile
      (fun c => c = ')' || c = '.' || c = '-' || c = '–' || c = '—' || c = ':')
    l3.dropWhile pyIsSpace

/-- Removal of `^\s*[–—-]\s*` when it matches. -/
def stripDashPrefix (l : List Char) : List Char :=
  let l1 := l.dropWhile pyIsSpace
  match l1 with
  | c :: rest => if c = '–' || c = '—' || c = '-' then rest.dropWhile pyIsSpace else l
  | [] => l

/-- Worker of `collapseWs`; the fuel (the list length bounds the steps)
keeps the recursion structural, so that it reduces inside `decide`. -/
def collapseWsGo : Nat → List Char → List Char
  | _, [] => []
  | _, [c] => [c]
  | 0, l => l
  | fuel + 1, c1 :: c2 :: rest =>
    if pyIsSpace c1 && pyIsSpace c2 then collapseWsGo fuel (' ' :: rest)
    else c1 :: collapseWsGo fuel (c2 :: rest)

/-- Replacement of every whitespace run of length at least two by a
single space (`re.sub(r"\s{2,}", " ", t)`). -/
def collapseWs (l : List Char) : List Char := collapseWsGo l.length l

/-- `strip_numbering_from_h3` from the source. -/
def strip_numbering_from_h3 (title : String) : String :=
  let t0 := pyStripL title.data
  let t1 := stripKeywordPrefix t0
  let t2 := stripNumberingPrefix t1
  let t3 := stripDashPrefix t2
  let t4 := pyStripL (collapseWs t3)
  if t4 = [] then pyStrip title else ⟨t4⟩

/-! Front matter: `extract_front_matter`. -/

/-- Index of the first occurrence of a pattern in a character list. -/
def findPattern (pat : List Char) : List Char → Option Nat
  | [] => if pat = [] then some 0 else none
  | c :: rest =>
    if pat.isPrefixOf (c :: rest) then some 0
    else (findPattern pat rest).map (· + 1)

/-- Python `s.split(sep, 1)` when `sep` occurs: the parts before and
after the first occurrence. -/
def pySplitOnce (s sep : String) : Option (String × String) :=
  (findPattern sep.data s.data).map fun i =>
    (⟨s.data.take i⟩, ⟨s.data.drop (i + sep.data.length)⟩)

/-- The apostrophe character, as stripped from front-matter values. -/
def singleQuote : Char := Char.ofNat 39

/-- Character class `[A-Za-z0-9_-]` of the front-matter key regex. -/
def fmKeyChar (c : Char) : Bool := c.isAlphanum || c = '_' || c = '-'

/-- Match of `re.match(r"^([A-Za-z0-9_-]+)\s*:\s*(.*)\s*$", line)` with the
source's post-processing: both groups stripped, the value then stripped of
surrounding double and single quotes. -/
def parseFmLine (line : String) : Option (String × String) :=
  let l := line.data
  let key := l.takeWhile fmKeyChar
  if key = [] then none
  else
    match (l.drop key.length).dropWhile pyIsSpace with
    | ':' :: v =>
      let v1 := pyStripL (v.dropWhile pyIsSpace)
      let v2 := ((v1.dropWhile (· = '"')).reverse.dropWhile (· = '"')).reverse
      let v3 := ((v2.dropWhile (· = singleQuote)).reverse.dropWhile (· = singleQuote)).reverse
      some (⟨key⟩, ⟨v3⟩)
    | _ => none

/-- Dictionary update: a later assignment to the same key overwrites. -/
def fmInsert (fm : List (String × String)) (k v : String) : List (String × String) :=
  if fm.any (fun p => p.1 = k) then fm.map (fun p => if p.1 = k then (k, v) else p)
  else fm ++ [(k, v)]

/-- `extract_front_matter` from the source: the metadata dictionary and
the remaining body. -/
def extract_front_matter (md : String) : List (String × String) × String :=
  let md := normalize_newlines md
  if pyStartsWith md "---\n" = false then ([], md)
  else
    match pySplitOnce md "\n---\n" with
    | none => ([], md)
    | some (p0, body) =>
      let fmBlock := (pySplitlines p0).drop 1
      let fm := fmBlock.foldl
        (fun fm line =>
          let line := pyStrip line
          if line = "" || pyStartsWith line "#" then fm
          else
            match parseFmLine line with
            | some (k, v) => fmInsert fm k v
            | none => fm)
        []
      (fm, body)

/-! Outline extraction: `extract_h3_items`. -/

/-- Index of the last dot of a file name, if any. -/
def lastDotIdx (l : List Char) : Option Nat :=
  ((List.range l.length).filter (fun i => l.getD i ' ' = '.')).getLast?

/-- Python `pathlib.Path(name).stem` for a final path component: the name
less its suffix; the suffix starts at the last dot when that dot is
neither at the start nor at the end. -/
def pathStem (name : String) : String :=
  match lastDotIdx name.data with
  | some i => if 0 < i && i + 1 < name.data.length then ⟨name.data.take i⟩ else name
  | none => name

/-- `H3Item` from the source (`file_path` kept as its final component). -/
structure H3Item where
  file_name : String
  file_stem : String
  h1 : String
  h2 : String
  h3_raw : String
  h3_title : String
  category : String
deriving DecidableEq, Repr

/-- The single forward pass of `extract_h3_items` over the body lines,
carrying the current level-1 and level-2 headings; returns the emitted
items and the final heading state. -/
def extractGo (fileName fileStem : String) (h1c h2c : String) :
    List String → List H3Item × String × String
  | [] => ([], h1c, h2c)
  | line :: rest =>
    match matchHeading 1 line with
    | some t => extractGo fileName fileStem t "" rest
    | none =>
      match matchHeading 2 line with
      | some t => extractGo fileName fileStem h1c t rest
      | none =>
        match matchHeading 3 line with
        | some raw =>
          let title := strip_numbering_from_h3 raw
          let h1 := if pyStrip h1c = "" then "Sin sección principal" else pyStrip h1c
          let h2 := if pyStrip h2c = "" then "Sin subsección" else pyStrip h2c
          let category := fileStem ++ ", " ++ h1 ++ ", " ++ h2
          let res := extractGo fileName fileStem h1c h2c rest
          (⟨fileName, fileStem, h1, h2, raw, title, category⟩ :: res.1, res.2)
        | none => extractGo fileName fileStem h1c h2c rest

/-- `file_path.stem.strip() or file_path.name` from the source. -/
def fileStemOf (fileName : String) : String :=
  let stem := pyStrip (pathStem fileName)
  if stem = "" then fileName else stem

/-- `extract_h3_items` from the source (the file path passed as its final
component `fileName`). -/
def extract_h3_items (md_body : String) (fileName : String) : List H3Item :=
  (extractGo fileName (fileStemOf fileName) "" "" (pySplitlines (normalize_newlines md_body))).1

/-! Context windowing: `extract_section_context`. -/

/-- The line scan of `extract_section_context`: `found` is the in-block
flag (set at the first line whose level-3 heading text equals `h3raw`,
never cleared before the loop exits); returns the collected body lines
and the final flag. -/
def sectionLoop (h3raw : String) : List String → Bool → List String × Bool
  | [], found => ([], found)
  | line :: rest, found =>
    match matchHeading 3 line with
    | some cur =>
      if cur = h3raw then sectionLoop h3raw rest true
      else if found then ([], found)
      else sectionLoop h3raw rest found
    | none =>
      if found && isBreakHeading line then ([], found)
      else if found then
        let res := sectionLoop h3raw rest found
        (line :: res.1, res.2)
      else sectionLoop h3raw rest found

/-- The reconstructed heading trail
`f"# {h1}\n## {h2}\n### {h3_raw}\n"`. -/
def contextHeader (h1 h2 h3_raw : String) : String :=
  "# " ++ h1 ++ "\n## " ++ h2 ++ "\n### " ++ h3_raw ++ "\n"

/-- The final size guard of `extract_section_context`:
`chunk[:max_chars].rstrip()` plus the fixed truncation marker when the
chunk exceeds the budget. -/
def truncateChunk (chunk : String) (max_chars : Nat) : String :=
  if max_chars < chunk.length then
    pyRstrip ⟨chunk.data.take max_chars⟩ ++ "\n\n*(Contexto truncado por límite de tamaño)*\n"
  else chunk

/-- `extract_section_context` from the source. -/
def extract_section_context (md_body h1 h2 h3_raw : String)
    (max_chars : Nat := 12000) : String :=
  let lines := pySplitlines (normalize_newlines md_body)
  let res := sectionLoop h3_raw lines false
  let header := contextHeader h1 h2 h3_raw
  let chunk := pyStrip (header ++ String.intercalate "\n" res.1)
  let chunk := if res.2 then chunk else pyStrip header
  truncateChunk chunk max_chars

/-- A body line the in-block scan keeps: neither a level-3 heading line
nor a level-1/level-2 break line. -/
def keepLine (line : String) : Bool :=
  (matchHeading 3 line).isNone && !isBreakHeading line

/-! Quality gate: `approx_word_count` and `quality_check`. -/

/-- Word characters of `\w`: ASCII alphanumerics, the underscore, and the
Latin-1 letters (the accented letters of the pipeline's Spanish text);
typographic dashes and quotes are not word characters. -/
def isWordChar (c : Char) : Bool :=
  c.isAlphanum || c = '_' ||
    (192 ≤ c.toNat && c.toNat ≤ 255 && c.toNat ≠ 215 && c.toNat ≠ 247)

/-- Worker of `countWordRuns`; the fuel (the list length bounds the
steps) keeps the recursion structural, so that it reduces inside
`decide`. -/
def countWordRunsGo : Nat → List Char → Nat
  | _, [] => 0
  | 0, _ => 0
  | fuel + 1, c :: rest =>
    if isWordChar c then 1 + countWordRunsGo fuel (rest.dropWhile isWordChar)
    else countWordRunsGo fuel rest

/-- Number of maximal word-character runs, i.e. of `re.findall(r"\w+", l)`
matches. -/
def countWordRuns (l : List Char) : Nat := countWordRunsGo l.length l

/-- `approx_word_count` from the source. -/
def approx_word_count (md : String) : Nat := countWordRuns md.data

/-- The required section markers (`needed` in `quality_check`). -/
def neededMarkers : List String := ["**Meta:**", "Errores", "Checklist", "Siguientes pasos"]

/-- Python `repr` of a list of strings without quotes inside, as it is
interpolated into the missing-sections reason. -/
def pyReprStrList (l : List String) : String :=
  "[" ++ String.intercalate ", " (l.map fun s => ⟨singleQuote :: s.data ++ [singleQuote]⟩) ++ "]"

/-- Largest multiplicity of a line value (Python
`max((lines.count(ln) for ln in set(lines)), default=1)`). -/
def maxLineCount (lines : List String) : Nat :=
  (lines.map fun l => lines.count l).foldr max 1

/-- Rules 3 and 4 of `quality_check`, reached when the heading and
word-count rules pass: required markers (case-insensitive), then the
line-repetition bound.  (The source computes the repetition maximum only
for a non-empty line list; with no lines the maximum defaults to 1 < 6,
so the guard is equivalent.) -/
def qualityRest (text : String) : Bool × String :=
  let missing := neededMarkers.filter fun k => pyContains (pyLower k) (pyLower text) = false
  if missing ≠ [] then (false, "Faltan secciones: " ++ pyReprStrList missing)
  else
    let lines := ((pySplitlines text).map pyStrip).filter fun l => l ≠ ""
    if 6 ≤ maxLineCount lines then (false, "Repetición excesiva de líneas")
    else (true, "OK")

/-- `quality_check` from the source. -/
def quality_check (md : String) (min_words : Nat) : Bool × String :=
  let text := pyStrip md
  if pyStartsWith text "# " = false then (false, "No empieza con H1 (# ...)")
  else
    let wc := approx_word_count text
    if wc < min_words then (false, "Muy corto (~" ++ toString wc ++ " palabras)")
    else qualityRest text

/-! Cache addressing: `cache_path`. -/

/-- The key string hashed by `cache_path`:
`f"{file_path.name}||{title}||{category}||{model}"`. -/
def cacheKeyString (fileName title category model : String) : String :=
  fileName ++ "||" ++ title ++ "||" ++ category ++ "||" ++ model

/-- `cache_path` from the source, as the file name inside the fixed cache
directory: the first 24 hex digits of the SHA-256 of the key string,
plus the `.json` extension. -/
def cache_path (fileName title category model : String) : String :=
  ⟨(sha256hex (cacheKeyString fileName title category model)).data.take 24⟩ ++ ".json"

/-! Prompts: `build_prompt` and `repair_prompt`. -/

/-- `build_prompt` from the source: the system and user messages for a
fresh generation call. -/
def build_prompt (section_context category article_title : String) : String × String :=
  ("Eres un redactor técnico senior especializado en IA aplicada a programación. " ++
   "Escribes en español, con un tono claro, práctico y profesional para programadores. " ++
   "No inventas enlaces, fuentes ni datos. No añades relleno innecesario.",
   "CONTEXTO (sección relevante del temario):\n" ++
   "\"\"\"" ++ section_context ++ "\"\"\"\n" ++
   "\n" ++
   "METADATOS:\n" ++
   "- Categoría: " ++ category ++ "\n" ++
   "- Título: \"" ++ article_title ++ "\"\n" ++
   "\n" ++
   "TAREA:\n" ++
   "Genera un artículo en Markdown. Longitud objetivo: 900–1400 palabras.\n" ++
   "\n" ++
   "FORMATO DE SALIDA (estricto):\n" ++
   "1) Primera línea: # " ++ article_title ++ "\n" ++
   "2) Segunda línea: **Meta:** <meta descripción 140–160 caracteres>\n" ++
   "3) Luego el contenido.\n" ++
   "\n" ++
   "Estructura mínima:\n" ++
   "- Introducción (por qué importa)\n" ++
   "- Explicación principal con ejemplos (incluye 1 bloque de código corto si ayuda)\n" ++
   "- Errores típicos / trampas (>=3)\n" ++
   "- Checklist accionable (5–10 puntos)\n" ++
   "- Siguientes pasos (2–4 bullets)\n" ++
   "\n" ++
   "REGLAS:\n" ++
   "- NO incluyas YAML front-matter.\n" ++
   "- NO incluyas enlaces inventados.\n" ++
   "- NO incluyas frases tipo “Aquí tienes…”.\n" ++
   "- Devuelve SOLO Markdown.\n")

/-- `repair_prompt` from the source: the system and user messages for the
single repair call (the `title` parameter is accepted but, as in the
source, not interpolated into the message). -/
def repair_prompt (original_md title reason : String) : String × String :=
  ("Eres un editor técnico senior. Mejoras artículos Markdown en español. " ++
   "No inventas enlaces ni metes paja. Mantienes coherencia, y amplías si hace falta.",
   "El artículo siguiente ha fallado el control de calidad por: " ++ reason ++ "\n" ++
   "\n" ++
   "OBJETIVO (estricto):\n" ++
   "- Mantén el mismo tema y el mismo título.\n" ++
   "- Asegura que el artículo tenga entre 900–1400 palabras (si está corto, amplía con contenido útil).\n" ++
   "- Debe incluir: **Meta:**, sección de Errores, Checklist, y Siguientes pasos.\n" ++
   "- Añade ejemplos concretos y explicación más profunda (sin inventar fuentes/enlaces).\n" ++
   "- Devuelve SOLO Markdown.\n" ++
   "\n" ++
   "ARTÍCULO ACTUAL:\n" ++
   "\"\"\"" ++ original_md ++ "\"\"\"\n")

/-! Persistence collaborator: the `posts` table, modelled as a list of
rows in insertion order.  The `date` column (`now_iso()`) carries no
information any claim depends on and is omitted from the row. -/

/-- One row of the `posts` table. -/
structure Post where
  title : String
  content : String
  category : String
deriving DecidableEq, Repr

/-- The `posts` table in insertion order. -/
abbrev DB := List Post

/-- `post_exists` from the source:
`SELECT 1 FROM posts WHERE title = ? AND category = ? LIMIT 1`. -/
def post_exists (db : DB) (title category : String) : Bool :=
  db.any fun p => p.title == title && p.category == category

/-- `insert_post` from the source: appends one row. -/
def insert_post (db : DB) (title content_md category : String) : DB :=
  db ++ [⟨title, content_md, category⟩]

/-! Cache store: one record per cache file name.  `generated_at`
(wall clock) and `ollama_url` (transport) are omitted; JSON round-trips
are assumed faithful, so the `except`-guard around reads never fires. -/

/-- The decoded JSON record of one cache file. -/
structure CacheRecord where
  source_file : String
  category : String
  title : String
  model : String
  ok : Bool
  reason : String
  h1 : String
  h2 : String
  h3_raw : String
  content : String
deriving DecidableEq, Repr

/-- The cache directory: an association from file name to record; a
write prepends, a lookup takes the first match, so the latest write to a
name wins, as overwriting the file does. -/
abbrev Cache := List (String × CacheRecord)

/-- Cache lookup (`ck.is_file()` plus the read). -/
def cacheLookup (c : Cache) (k : String) : Option CacheRecord :=
  (c.find? fun p => p.1 == k).map (·.2)

/-- Cache write (`ck.write_text(json.dumps(...))`). -/
def cacheWrite (c : Cache) (k : String) (r : CacheRecord) : Cache := (k, r) :: c

/-! The orchestrator (`main`'s per-item loop). -/

/-- The process parameters of the run that the loop consults. -/
structure Config where
  model : String
  dryRun : Bool
  limit : Nat
  minWords : Nat
  repair : Bool
deriving DecidableEq, Repr

/-- Mutable run state: the two stores and the four run counters. -/
structure RunState where
  db : DB
  cache : Cache
  generated : Nat
  inserted : Nat
  skipped : Nat
  rejected : Nat
deriving DecidableEq, Repr

/-- How the processing of one leaf item ended. -/
inductive Outcome where
  | duplicateSkip
  | cacheToDb
  | rejected (reason : String)
  | insertedNew
deriving DecidableEq, Repr

/-- One call to the generation collaborator, tagged by which of the two
invocation sites issued it. -/
inductive GenCall where
  | generate (system user : String)
  | repair (system user : String)
deriving DecidableEq, Repr

/-- Number of repair-site calls in a call trace. -/
def repairCalls (calls : List GenCall) : Nat :=
  (calls.filter fun c => match c with | GenCall.repair _ _ => true | _ => false).length

/-- The repair-eligibility test of the source:
`"Muy corto" in reason or "Faltan secciones" in reason`. -/
def repairEligible (reason : String) : Bool :=
  pyContains "Muy corto" reason || pyContains "Faltan secciones" reason

/-- The fresh-generation prompt of one leaf item: the context window
(lines 465-466 of the source) fed into `build_prompt`. -/
def freshPrompt (body : String) (it : H3Item) : String × String :=
  build_prompt (extract_section_context body it.h1 it.h2 it.h3_raw) it.category it.h3_title

/-- The freshly generated text of one leaf item. -/
def freshContent (gen : String → String → String) (body : String) (it : H3Item) : String :=
  gen (freshPrompt body it).1 (freshPrompt body it).2

/-- The gate verdict on the freshly generated text. -/
def freshQuality (cfg : Config) (gen : String → String → String)
    (body : String) (it : H3Item) : Bool × String :=
  quality_check (freshContent gen body it) cfg.minWords

/-- The repair prompt built from the fresh content and its rejection
reason. -/
def repairPromptOf (cfg : Config) (gen : String → String → String)
    (body : String) (it : H3Item) : String × String :=
  repair_prompt (freshContent gen body it) it.h3_title (freshQuality cfg gen body it).2

/-- The repaired text returned by the repair call. -/
def repairedContent (cfg : Config) (gen : String → String → String)
    (body : String) (it : H3Item) : String :=
  gen (repairPromptOf cfg gen body it).1 (repairPromptOf cfg gen body it).2

/-- The gate verdict on the repaired text. -/
def repairedQuality (cfg : Config) (gen : String → String → String)
    (body : String) (it : H3Item) : Bool × String :=
  quality_check (repairedContent cfg gen body it) cfg.minWords

/-- The generation path of the loop (lines 464-512): context window,
generation call, quality gate, the bounded repair branch, the cache
write, and the reject-or-insert decision. -/
def generateFresh (cfg : Config) (gen : String → String → String)
    (body fileName : String) (st : RunState) (it : H3Item) :
    RunState × Outcome × List GenCall :=
  let title := it.h3_title
  let category := it.category
  let ck := cache_path fileName title category cfg.model
  let sysUser := freshPrompt body it
  let content_md := gen sysUser.1 sysUser.2
  let st1 := {st with generated := st.generated + 1}
  let qr := quality_check content_md cfg.minWords
  let fin :=
    if !qr.1 && cfg.repair && repairEligible qr.2 then
      let sysUser2 := repair_prompt content_md title qr.2
      let content_md2 := gen sysUser2.1 sysUser2.2
      let qr2 := quality_check content_md2 cfg.minWords
      if qr2.1 then
        (content_md2, qr2.1, qr2.2,
         [GenCall.generate sysUser.1 sysUser.2, GenCall.repair sysUser2.1 sysUser2.2])
      else
        (content_md, false, qr.2 ++ " | Repair falló: " ++ qr2.2,
         [GenCall.generate sysUser.1 sysUser.2, GenCall.repair sysUser2.1 sysUser2.2])
    else (content_md, qr.1, qr.2, [GenCall.generate sysUser.1 sysUser.2])
  let record : CacheRecord :=
    ⟨fileName, category, title, cfg.model, fin.2.1, fin.2.2.1, it.h1, it.h2, it.h3_raw, fin.1⟩
  let st2 := {st1 with cache := cacheWrite st1.cache ck record}
  if fin.2.1 then
    let db2 := if cfg.dryRun then st2.db else insert_post st2.db title fin.1 category
    ({st2 with db := db2, inserted := st2.inserted + 1}, Outcome.insertedNew, fin.2.2.2)
  else
    ({st2 with rejected := st2.rejected + 1}, Outcome.rejected fin.2.2.1, fin.2.2.2)

/-- Processing of one leaf item (lines 439-512): the dedupe check, then
the cache branch with re-validation, then the generation path. -/
def processItem (cfg : Config) (gen : String → String → String)
    (body fileName : String) (st : RunState) (it : H3Item) :
    RunState × Outcome × List GenCall :=
  let title := it.h3_title
  let category := it.category
  if post_exists st.db title category then
    ({st with skipped := st.skipped + 1}, Outcome.duplicateSkip, [])
  else
    match cacheLookup st.cache (cache_path fileName title category cfg.model) with
    | some record =>
      let content_md := pyStrip record.content
      let qr := if content_md = "" then (false, "Cache vacío")
                else quality_check content_md cfg.minWords
      if qr.1 then
        let db2 := if cfg.dryRun then st.db else insert_post st.db title content_md category
        ({st with db := db2, inserted := st.inserted + 1}, Outcome.cacheToDb, [])
      else generateFresh cfg gen body fileName st it
    | none => generateFresh cfg gen body fileName st it

/-- The item loop of one file, with the `--limit` break at the top of
each iteration; returns the per-item trace of processed items. -/
def runItems (cfg : Config) (gen : String → String → String) (body fileName : String) :
    RunState → List H3Item → RunState × List (H3Item × Outcome × List GenCall)
  | st, [] => (st, [])
  | st, it :: rest =>
    if cfg.limit ≠ 0 ∧ cfg.limit ≤ st.generated then (st, [])
    else
      let step := processItem cfg gen body fileName st it
      let res := runItems cfg gen body fileName step.1 rest
      (res.1, (it, step.2.1, step.2.2) :: res.2)

/-- The file loop of `main` (lines 423-515): front matter off, items out,
the item loop, and the `--limit` break between files. -/
def runFiles (cfg : Config) (gen : String → String → String) :
    RunState → List (String × String) → RunState × List (H3Item × Outcome × List GenCall)
  | st, [] => (st, [])
  | st, (fileName, raw) :: rest =>
    let body := (extract_front_matter raw).2
    let items := extract_h3_items body fileName
    let res1 := runItems cfg gen body fileName st items
    if cfg.limit ≠ 0 ∧ cfg.limit ≤ res1.1.generated then (res1.1, res1.2)
    else
      let res2 := runFiles cfg gen res1.1 rest
      (res2.1, res1.2 ++ res2.2)

/-- A run state with empty counters over given stores. -/
def initState (db : DB) (cache : Cache) : RunState := ⟨db, cache, 0, 0, 0, 0⟩

/-! Concrete scenarios used by witnesses and counterexamples. -/

/-- A configuration with the defaults that matter (`--limit 0`, repair
on, no dry run) and a small word threshold. -/
def cfg3 : Config := ⟨"m", false, 0, 3, true⟩

/-- An article that passes every gate rule at threshold 3. -/
def goodArticle : String := "# X\n**Meta:** d\nErrores\nChecklist\nSiguientes pasos"

/-- A document whose two leaf items have different (title, category)
pairs but identical cache key strings: the `"||"` separator occurs in
the first item's level-2 heading and in the second item's level-3
heading, making the concatenated keys coincide. -/
def collisionBody : String := "# H\n## V||doc, H, W\n### t\n## W\n### t||doc, H, V"

/-- The run input holding just the collision document. -/
def collisionDocs : List (String × String) := [("doc.md", collisionBody)]

/-- A generation oracle that answers the second item's prompt (the only
one whose user message mentions its title) with a passing article and
every other prompt with text failing the gate's heading rule. -/
def collisionOracle : String → String → String := fun _ user =>
  if pyContains "t||doc, H, V" user then goodArticle else "bad"

/-- A one-item document for the straightforward witnesses. -/
def simpleDocs : List (String × String) := [("d.md", "# A\n## B\n### T\nx")]

/-- The leaf item `simpleDocs` yields. -/
def simpleItem : H3Item := ⟨"d.md", "d", "A", "B", "T", "T", "d, A, B"⟩

/-- An oracle that always returns the passing article. -/
def alwaysGood : String → String → String := fun _ _ => goodArticle

/-- A configuration under which every short answer fails the word-count
rule. -/
def cfg50 : Config := ⟨"m", false, 0, 50, true⟩

/-- An oracle whose fresh answer and repair answer both stay short: the
repair user message is recognised by its fixed first words. -/
def shortOracle : String → String → String := fun _ user =>
  if pyStartsWith user "El artículo" then "# T sigue corto" else "# T corto"

/-- Cache file name of the simple item under `cfg3`. -/
def simpleKey : String := cache_path "d.md" "T" "d, A, B" "m"

/-- A cached record for the simple item holding a passing article. -/
def simpleRec : CacheRecord := ⟨"d.md", "d, A, B", "T", "m", true, "OK", "A", "B", "T", goodArticle⟩

/-- A cached record for the simple item holding a failing article. -/
def simpleBadRec : CacheRecord := ⟨"d.md", "d, A, B", "T", "m", false, "x", "A", "B", "T", "bad"⟩

/-- A lowercase hexadecimal digit. -/
def isLowerHex (c : Char) : Bool :=
  c.isDigit || (97 ≤ c.toNat && c.toNat ≤ 102)

/-- A text whose first line is a level-1 heading with the title `Otro`,
passing every gate rule at threshold 3. -/
def wrongTitleText : String := "# Otro\n**Meta:** a\nErrores\nChecklist\nSiguientes pasos"

/-! Shared lemmas. -/

/-- String concatenation acts on the underlying character lists. -/
theorem string_data_append (a b : String) : (a ++ b).data = a.data ++ b.data := rfl

/-- A list is a Boolean prefix of itself followed by anything. -/
theorem isPrefixOf_append_self (a b : List Char) : a.isPrefixOf (a ++ b) = true := by
  induction a with
  | nil => simp [List.isPrefixOf]
  | cons c rest ih => simp [List.isPrefixOf, ih]

/-- The containment scan finds a pattern spliced into the middle. -/
theorem pyContainsL_middle (n a b : List Char) : pyContainsL n (a ++ (n ++ b)) = true := by
  induction a with
  | nil =>
    cases n with
    | nil => cases b <;> simp [pyContainsL, List.isPrefixOf]
    | cons c rest => simp [pyContainsL, isPrefixOf_append_self]
  | cons c rest ih => simp [pyContainsL, ih]

/-- `post_exists` is monotone under appending rows. -/
theorem post_exists_append (db : DB) (l : List Post) (t c : String)
    (h : post_exists db t c = true) : post_exists (db ++ l) t c = true := by
  simp only [post_exists, List.any_append] at *
  simp [h]

/-! Outline-extraction lemmas. -/

/-- The extraction pass splits over list concatenation, threading the
heading state. -/
theorem extractGo_append (fn fs : String) (xs ys : List String) :
    ∀ h1c h2c,
      extractGo fn fs h1c h2c (xs ++ ys) =
        ((extractGo fn fs h1c h2c xs).1 ++
           (extractGo fn fs (extractGo fn fs h1c h2c xs).2.1
             (extractGo fn fs h1c h2c xs).2.2 ys).1,
         (extractGo fn fs (extractGo fn fs h1c h2c xs).2.1
           (extractGo fn fs h1c h2c xs).2.2 ys).2) := by
  induction xs with
  | nil => intro h1c h2c; simp [extractGo]
  | cons line rest ih =>
    intro h1c h2c
    cases hm1 : matchHeading 1 line with
    | some t => simpa [extractGo, hm1] using ih t ""
    | none =>
      cases hm2 : matchHeading 2 line with
      | some t => simpa [extractGo, hm1, hm2] using ih h1c t
      | none =>
        cases hm3 : matchHeading 3 line with
        | some raw => simp [extractGo, hm1, hm2, hm3, ih h1c h2c]
        | none => simpa [extractGo, hm1, hm2, hm3] using ih h1c h2c

/-- With no level-2 heading line in sight, every item extracted from a
cleared level-2 state carries the placeholder label. -/
theorem extractGo_no_h2_placeholder (fn fs : String) :
    ∀ (ls : List String) (h1c : String),
      (∀ l ∈ ls, matchHeading 2 l = none) →
      ∀ it ∈ (extractGo fn fs h1c "" ls).1, it.h2 = "Sin subsección" := by
  intro ls
  induction ls with
  | nil => intro h1c _ it hit; simp [extractGo] at hit
  | cons line rest ih =>
    intro h1c hno it hit
    have hline : matchHeading 2 line = none := hno line (by simp)
    have hrest : ∀ l ∈ rest, matchHeading 2 l = none := fun l hl => hno l (by simp [hl])
    cases hm1 : matchHeading 1 line with
    | some t =>
      simp only [extractGo, hm1] at hit
      exact ih t hrest it hit
    | none =>
      cases hm3 : matchHeading 3 line with
      | some raw =>
        simp only [extractGo, hm1, hline, hm3] at hit
        rcases List.mem_cons.mp hit with h | h
        · rw [h]
          simp [pyStrip, pyStripL]
        · exact ih h1c hrest it h
      | none =>
        simp only [extractGo, hm1, hline, hm3] at hit
        exact ih h1c hrest it hit

/-- Every item the extraction pass emits composes its category from its
own stem and heading fields with the fixed separator. -/
theorem extractGo_category (fn fs : String) :
    ∀ (ls : List String) (h1c h2c : String) (it : H3Item),
      it ∈ (extractGo fn fs h1c h2c ls).1 →
      it.file_stem = fs ∧ it.category = it.file_stem ++ ", " ++ it.h1 ++ ", " ++ it.h2 := by
  intro ls
  induction ls with
  | nil => intro h1c h2c it hit; simp [extractGo] at hit
  | cons line rest ih =>
    intro h1c h2c it hit
    cases hm1 : matchHeading 1 line with
    | some t =>
      simp only [extractGo, hm1] at hit
      exact ih t "" it hit
    | none =>
      cases hm2 : matchHeading 2 line with
      | some t =>
        simp only [extractGo, hm1, hm2] at hit
        exact ih h1c t it hit
      | none =>
        cases hm3 : matchHeading 3 line with
        | some raw =>
          simp only [extractGo, hm1, hm2, hm3] at hit
          rcases List.mem_cons.mp hit with h | h
          · rw [h]
            exact ⟨rfl, rfl⟩
          · exact ih h1c h2c it h
        | none =>
          simp only [extractGo, hm1, hm2, hm3] at hit
          exact ih h1c h2c it hit

/-- C7 (confirmed): a level-1 heading line clears the remembered level-2
heading before replacing the level-1 value, so every leaf item extracted
after it, with no intervening level-2 heading line, carries the
placeholder level-2 label rather than any earlier level-2 value. -/
theorem h1_resets_h2_scope (body fileName : String) (ls1 : List String) (l1 : String)
    (ls2 : List String) (t : String)
    (hsplit : pySplitlines (normalize_newlines body) = ls1 ++ l1 :: ls2)
    (hh1 : matchHeading 1 l1 = some t)
    (hnoh2 : ∀ l ∈ ls2, matchHeading 2 l = none) :
    (∃ pre, extract_h3_items body fileName =
        pre ++ (extractGo fileName (fileStemOf fileName) t "" ls2).1)
    ∧ ∀ it ∈ (extractGo fileName (fileStemOf fileName) t "" ls2).1,
        it.h2 = "Sin subsección" := by
  refine ⟨?_, extractGo_no_h2_placeholder _ _ ls2 t hnoh2⟩
  unfold extract_h3_items
  rw [hsplit]
  have hsp : ls1 ++ l1 :: ls2 = (ls1 ++ [l1]) ++ ls2 := by simp
  rw [hsp, extractGo_append]
  have hstate : (extractGo fileName (fileStemOf fileName) "" ""
      (ls1 ++ [l1])).2 = (t, "") := by
    rw [extractGo_append]
    simp [extractGo, hh1]
  rw [hstate]
  exact ⟨_, rfl⟩

/-- Witness for C7: in `"## Old" / "# A" / "### T"` the leaf under the
new level-1 heading gets the placeholder level-2 label and not `"Old"`. -/
theorem h1_resets_h2_scope_witness :
    (∃ pre, extract_h3_items "## Old\n# A\n### T" "d.md" =
        pre ++ (extractGo "d.md" (fileStemOf "d.md") "A" "" ["### T"]).1)
    ∧ ∀ it ∈ (extractGo "d.md" (fileStemOf "d.md") "A" "" ["### T"]).1,
        it.h2 = "Sin subsección" :=
  h1_resets_h2_scope "## Old\n# A\n### T" "d.md" ["## Old"] "# A" ["### T"] "A"
    (by decide) (by decide) (by decide)

/-- C8 (confirmed): every emitted leaf item's category is the source
identity, the level-1 text and the level-2 text joined with `", "`. -/
theorem category_composition (body fileName : String) (it : H3Item)
    (hmem : it ∈ extract_h3_items body fileName) :
    it.category = it.file_stem ++ ", " ++ it.h1 ++ ", " ++ it.h2 := by
  unfold extract_h3_items at hmem
  exact (extractGo_category _ _ _ _ _ it hmem).2

/-- Witness for C8: source identity `intro`, level-1 `Fundamentals`,
level-2 `Basics` compose to exactly `intro, Fundamentals, Basics`. -/
theorem category_composition_witness :
    (⟨"intro.md", "intro", "Fundamentals", "Basics", "Leaf", "Leaf",
        "intro, Fundamentals, Basics"⟩ : H3Item).category
      = (⟨"intro.md", "intro", "Fundamentals", "Basics", "Leaf", "Leaf",
          "intro, Fundamentals, Basics"⟩ : H3Item).file_stem ++ ", " ++
        (⟨"intro.md", "intro", "Fundamentals", "Basics", "Leaf", "Leaf",
          "intro, Fundamentals, Basics"⟩ : H3Item).h1 ++ ", " ++
        (⟨"intro.md", "intro", "Fundamentals", "Basics", "Leaf", "Leaf",
          "intro, Fundamentals, Basics"⟩ : H3Item).h2 :=
  category_composition "# Fundamentals\n## Basics\n### Leaf" "intro.md" _ (by decide)

/-! Quality-gate lemmas. -/

/-- The word-count rejection reason never equals the heading rejection
reason (their first characters differ). -/
theorem muyCorto_ne_r1 (n : Nat) :
    ("Muy corto (~" ++ toString n ++ " palabras)" : String) ≠ "No empieza con H1 (# ...)" := by
  intro h
  have h2 := congrArg (fun s => s.data.head?) h
  simp only [string_data_append] at h2
  simp at h2

/-- The missing-sections rejection reason never equals the heading
rejection reason (their first characters differ). -/
theorem faltan_ne_r1 (s : String) :
    ("Faltan secciones: " ++ s : String) ≠ "No empieza con H1 (# ...)" := by
  intro h
  have h2 := congrArg (fun s => s.data.head?) h
  simp only [string_data_append] at h2
  simp at h2

/-- C4 (corrected): rule 1 of the gate checks only that the stripped text
starts with the marker `"# "`; the expected title is not consulted, so
the heading rejection appears exactly when the marker is absent —
never because the title after the marker is the wrong one. -/
theorem rule1_checks_marker_only (md : String) (mw : Nat) :
    quality_check md mw = (false, "No empieza con H1 (# ...)") ↔
      pyStartsWith (pyStrip md) "# " = false := by
  simp only [quality_check]
  by_cases h : pyStartsWith (pyStrip md) "# " = false
  · simp [h]
  · rw [if_neg h]
    constructor
    · intro heq
      exfalso
      by_cases hwc : approx_word_count (pyStrip md) < mw
      · rw [if_pos hwc] at heq
        exact muyCorto_ne_r1 _ (congrArg Prod.snd heq)
      · rw [if_neg hwc] at heq
        simp only [qualityRest] at heq
        by_cases hm : (neededMarkers.filter fun k =>
            pyContains (pyLower k) (pyLower (pyStrip md)) = false) ≠ []
        · rw [if_pos hm] at heq
          exact faltan_ne_r1 _ (congrArg Prod.snd heq)
        · rw [if_neg hm] at heq
          by_cases hr : 6 ≤ maxLineCount
              (((pySplitlines (pyStrip md)).map pyStrip).filter fun l => l ≠ "")
          · rw [if_pos hr] at heq
            have := congrArg Prod.snd heq
            simp only at this
            exact absurd this (by decide)
          · rw [if_neg hr] at heq
            simp at heq
    · intro hc
      exact absurd hc h

/-- Counterexample for C4: a text whose level-1 heading carries the title
`Otro`, different from the expected title `Esperado`; the claim predicts
a rule-1 rejection, but the gate accepts the text outright. -/
theorem gate_accepts_foreign_title :
    quality_check wrongTitleText 3 = (true, "OK")
    ∧ pyStartsWith (pyStrip wrongTitleText) ("# " ++ "Esperado") = false := by
  decide

/-- C9 (confirmed): for a text passing rule 1, a word count equal to the
threshold sends the gate past the word-count rule, and a word count one
below the threshold rejects with a reason that carries the measured
count. -/
theorem word_count_boundary (md : String) (mw : Nat)
    (hstart : pyStartsWith (pyStrip md) "# " = true) :
    (approx_word_count (pyStrip md) = mw →
        quality_check md mw = qualityRest (pyStrip md))
    ∧ (approx_word_count (pyStrip md) + 1 = mw →
        quality_check md mw =
          (false, "Muy corto (~" ++ toString (approx_word_count (pyStrip md)) ++ " palabras)")
        ∧ pyContains (toString (approx_word_count (pyStrip md)))
            (quality_check md mw).2 = true) := by
  have hne : ¬ pyStartsWith (pyStrip md) "# " = false := by simp [hstart]
  constructor
  · intro he
    simp only [quality_check]
    rw [if_neg hne, if_neg (by omega)]
  · intro he
    have hlt : approx_word_count (pyStrip md) < mw := by omega
    have heq : quality_check md mw =
        (false, "Muy corto (~" ++ toString (approx_word_count (pyStrip md)) ++ " palabras)") := by
      simp only [quality_check]
      rw [if_neg hne, if_pos hlt]
    refine ⟨heq, ?_⟩
    rw [heq]
    show pyContainsL _ _ = true
    have := pyContainsL_middle (toString (approx_word_count (pyStrip md))).data
      ("Muy corto (~" : String).data (" palabras)" : String).data
    simpa [string_data_append, List.append_assoc] using this

/-- Witness for C9: `"# a b c"` counts 3 words; at threshold 3 the gate
passes the word-count rule, at threshold 4 it rejects with the measured
count 3 in the reason. -/
theorem word_count_boundary_witness :
    (quality_check "# a b c" 3 = qualityRest (pyStrip "# a b c"))
    ∧ quality_check "# a b c" 4 =
        (false, "Muy corto (~" ++ toString (approx_word_count (pyStrip "# a b c")) ++ " palabras)")
    ∧ pyContains (toString (approx_word_count (pyStrip "# a b c")))
        (quality_check "# a b c" 4).2 = true :=
  ⟨(word_count_boundary "# a b c" 3 (by decide)).1 (by decide),
   (word_count_boundary "# a b c" 4 (by decide)).2 (by decide)⟩

/-! Digest-shape lemmas for the cache file name. -/

/-- One SHA-256 round always yields an 8-word state. -/
theorem shaRound_length (w st : List Nat) (t : Nat) : (shaRound w st t).length = 8 := by
  simp [shaRound]

/-- Folding rounds over any index list preserves the 8-word state. -/
theorem foldl_shaRound_length (w : List Nat) :
    ∀ (l : List Nat) (st : List Nat), st.length = 8 →
      (l.foldl (shaRound w) st).length = 8 := by
  intro l
  induction l with
  | nil => intro st h; simpa using h
  | cons x rest ih => intro st h; exact ih _ (shaRound_length ..)

/-- Compression preserves the 8-word state. -/
theorem shaCompress_length (hs block : List Nat) (h : hs.length = 8) :
    (shaCompress hs block).length = 8 := by
  simp [shaCompress, List.length_zip, h, foldl_shaRound_length _ _ _ h]

/-- The block loop preserves the 8-word state. -/
theorem shaBlocksGo_length :
    ∀ (fuel : Nat) (l hs : List Nat), hs.length = 8 →
      (shaBlocksGo fuel hs l).length = 8 := by
  intro fuel
  induction fuel with
  | zero => intro l hs h; cases l <;> simpa [shaBlocksGo] using h
  | succ fuel ih =>
    intro l hs h
    cases l with
    | nil => simpa [shaBlocksGo] using h
    | cons b rest => exact ih _ _ (shaCompress_length _ _ h)

/-- Unpacking words yields four bytes per word. -/
theorem wordsToBytes_length : ∀ l : List Nat, (wordsToBytes l).length = 4 * l.length := by
  intro l
  induction l with
  | nil => rfl
  | cons w rest ih => simp [wordsToBytes, wordBytes, ih]; ring

/-- Every unpacked byte is below 256. -/
theorem wordsToBytes_lt : ∀ (l : List Nat), ∀ b ∈ wordsToBytes l, b < 256 := by
  intro l
  induction l with
  | nil => intro b hb; simp [wordsToBytes] at hb
  | cons w rest ih =>
    intro b hb
    simp only [wordsToBytes, wordBytes, List.mem_append, List.mem_cons] at hb
    rcases hb with h | hb
    · rcases h with h | h | h | h | h
      all_goals first
        | (rw [h]; exact Nat.mod_lt _ (by norm_num))
        | simp at h
    · exact ih b hb

/-- The digest has 32 bytes. -/
theorem sha256bytes_length (msg : List Nat) : (sha256bytes msg).length = 32 := by
  simp [sha256bytes, wordsToBytes_length, shaBlocksGo_length _ _ shaH0 (by decide)]

/-- Every digest byte is below 256. -/
theorem sha256bytes_lt (msg : List Nat) : ∀ b ∈ sha256bytes msg, b < 256 :=
  wordsToBytes_lt _

/-- Hex rendering doubles the length. -/
theorem bytesToHex_length : ∀ l : List Nat, (bytesToHex l).length = 2 * l.length := by
  intro l
  induction l with
  | nil => rfl
  | cons b rest ih => simp [bytesToHex, ih]; ring

/-- A hex digit of a value below 16 is a lowercase hexadecimal digit. -/
theorem hexDigit_isLowerHex (n : Nat) (h : n < 16) : isLowerHex (hexDigit n) = true := by
  interval_cases n <;> decide

/-- Every character of the hex rendering of bytes below 256 is a
lowercase hexadecimal digit. -/
theorem bytesToHex_hex :
    ∀ (l : List Nat), (∀ b ∈ l, b < 256) → ∀ c ∈ bytesToHex l, isLowerHex c = true := by
  intro l
  induction l with
  | nil => intro _ c hc; simp [bytesToHex] at hc
  | cons b rest ih =>
    intro hb c hc
    have hblt : b < 256 := hb b (by simp)
    simp only [bytesToHex, List.mem_cons] at hc
    rcases hc with h | h | h
    · rw [h]
      exact hexDigit_isLowerHex _ (Nat.div_lt_of_lt_mul (by omega))
    · rw [h]
      exact hexDigit_isLowerHex _ (Nat.mod_lt _ (by norm_num))
    · exact ih (fun x hx => hb x (by simp [hx])) c h

/-- The hex digest has 64 characters. -/
theorem sha256hex_length (s : String) : (sha256hex s).data.length = 64 := by
  show (bytesToHex (sha256bytes (utf8Bytes s.data))).length = 64
  rw [bytesToHex_length, sha256bytes_length]

/-- Every character of the hex digest is a lowercase hexadecimal digit. -/
theorem sha256hex_hex (s : String) : ∀ c ∈ (sha256hex s).data, isLowerHex c = true :=
  bytesToHex_hex _ (sha256bytes_lt _)

/-- C10 (corrected): for every input, the computed cache file name is the
first 24 characters of the hex digest — all lowercase hexadecimal —
followed by exactly `".json"`; it contains no path separator and exactly
one dot, so headings can choose nothing about it and cannot escape the
cache directory. -/
theorem cache_filename_shape (f t c m : String) :
    (cache_path f t c m).data =
        (sha256hex (cacheKeyString f t c m)).data.take 24 ++ (".json" : String).data
    ∧ ((sha256hex (cacheKeyString f t c m)).data.take 24).length = 24
    ∧ (∀ ch ∈ (sha256hex (cacheKeyString f t c m)).data.take 24, isLowerHex ch = true)
    ∧ (∀ ch ∈ (cache_path f t c m).data, ch ≠ '/')
    ∧ (cache_path f t c m).data.count '.' = 1 := by
  have hhex : ∀ ch ∈ (sha256hex (cacheKeyString f t c m)).data.take 24,
      isLowerHex ch = true :=
    fun ch hch => sha256hex_hex _ ch (List.take_subset _ _ hch)
  have hdata : (cache_path f t c m).data =
      (sha256hex (cacheKeyString f t c m)).data.take 24 ++ (".json" : String).data := rfl
  refine ⟨hdata, ?_, hhex, ?_, ?_⟩
  · rw [List.length_take, sha256hex_length]
    norm_num
  · intro ch hch
    rw [hdata] at hch
    rcases List.mem_append.mp hch with h | h
    · intro hsl
      rw [hsl] at h
      exact absurd (hhex _ h) (by decide)
    · intro hsl
      rw [hsl] at h
      exact absurd h (by decide)
  · rw [hdata, List.count_append]
    have h0 : ((sha256hex (cacheKeyString f t c m)).data.take 24).count '.' = 0 := by
      rw [List.count_eq_zero]
      intro hmem
      exact absurd (hhex _ hmem) (by decide)
    rw [h0]
    decide

/-- Witness for C10 at a concrete input: the file name has exactly one
dot. -/
theorem cache_filename_shape_witness :
    (cache_path "a.md" "t" "c" "m").data.count '.' = 1 :=
  (cache_filename_shape "a.md" "t" "c" "m").2.2.2.2

set_option maxRecDepth 100000 in
/-- Counterexample for C10: the title character `j` does appear in the
computed file name (in the fixed `.json` suffix), so the clause that no
character of the title ever appears in the file name is false as stated. -/
theorem cache_filename_contains_title_char :
    'j' ∈ ("j" : String).data ∧ 'j' ∈ (cache_path "doc.md" "j" "c" "m").data := by
  decide

set_option maxRecDepth 100000 in
/-- C2 (code bug): two leaf items of one document — both emitted by the
extractor — differ in title and in category, yet their cache key strings
coincide, because the `"||"` separator occurring inside the level-2 and
level-3 headings lets text shift across field boundaries; hence the
cache paths coincide and the claimed injectivity fails. -/
theorem cache_key_collision_eval :
    (⟨"doc.md", "doc", "H", "V||doc, H, W", "t", "t", "doc, H, V||doc, H, W"⟩ : H3Item)
        ∈ extract_h3_items collisionBody "doc.md"
    ∧ (⟨"doc.md", "doc", "H", "W", "t||doc, H, V", "t||doc, H, V", "doc, H, W"⟩ : H3Item)
        ∈ extract_h3_items collisionBody "doc.md"
    ∧ ("t" : String) ≠ "t||doc, H, V"
    ∧ ("doc, H, V||doc, H, W" : String) ≠ "doc, H, W"
    ∧ cacheKeyString "doc.md" "t" "doc, H, V||doc, H, W" "m"
        = cacheKeyString "doc.md" "t||doc, H, V" "doc, H, W" "m"
    ∧ cache_path "doc.md" "t" "doc, H, V||doc, H, W" "m"
        = cache_path "doc.md" "t||doc, H, V" "doc, H, W" "m" := by
  have hk : cacheKeyString "doc.md" "t" "doc, H, V||doc, H, W" "m"
      = cacheKeyString "doc.md" "t||doc, H, V" "doc, H, W" "m" := by decide
  refine ⟨by decide, by decide, by decide, by decide, hk, ?_⟩
  unfold cache_path
  rw [hk]

/-! Context-window lemmas. -/

/-- Before the leaf heading is met, non-matching lines are skipped. -/
theorem sectionLoop_skip (h3raw : String) :
    ∀ (pre rest : List String),
      (∀ l ∈ pre, matchHeading 3 l ≠ some h3raw) →
      sectionLoop h3raw (pre ++ rest) false = sectionLoop h3raw rest false := by
  intro pre
  induction pre with
  | nil => intro rest _; rfl
  | cons line tail ih =>
    intro rest hno
    have hline : matchHeading 3 line ≠ some h3raw := hno line (by simp)
    have htail : ∀ l ∈ tail, matchHeading 3 l ≠ some h3raw := fun l hl => hno l (by simp [hl])
    have hstep : sectionLoop h3raw ((line :: tail) ++ rest) false
        = sectionLoop h3raw (tail ++ rest) false := by
      cases hm : matchHeading 3 line with
      | some cur =>
        have hne : ¬ cur = h3raw := fun hc => hline (by rw [hm, hc])
        simp [sectionLoop, hm, hne]
      | none => simp [sectionLoop, hm]
    rw [hstep]
    exact ih rest htail

/-- Once inside the block, with no further line matching the leaf
heading, the scan collects exactly the lines up to the first level-3 or
break heading. -/
theorem sectionLoop_collect (h3raw : String) :
    ∀ (suf : List String),
      (∀ l ∈ suf, matchHeading 3 l ≠ some h3raw) →
      sectionLoop h3raw suf true = (suf.takeWhile keepLine, true) := by
  intro suf
  induction suf with
  | nil => intro _; rfl
  | cons line tail ih =>
    intro hno
    have hline : matchHeading 3 line ≠ some h3raw := hno line (by simp)
    have htail : ∀ l ∈ tail, matchHeading 3 l ≠ some h3raw := fun l hl => hno l (by simp [hl])
    cases hm : matchHeading 3 line with
    | some cur =>
      have hne : ¬ cur = h3raw := fun hc => hline (by rw [hm, hc])
      simp [sectionLoop, hm, if_neg hne, List.takeWhile, keepLine]
    | none =>
      cases hb : isBreakHeading line with
      | true => simp [sectionLoop, hm, hb, List.takeWhile, keepLine]
      | false => simp [sectionLoop, hm, hb, List.takeWhile, keepLine, ih htail]

/-- With no line matching the leaf heading at all, the scan finds
nothing. -/
theorem sectionLoop_not_found (h3raw : String) :
    ∀ (ls : List String),
      (∀ l ∈ ls, matchHeading 3 l ≠ some h3raw) →
      sectionLoop h3raw ls false = ([], false) := by
  intro ls hno
  have := sectionLoop_skip h3raw ls [] hno
  simpa using this

/-- C6 (corrected): when the leaf heading occurs exactly once, the window
is the heading trail plus the lines after it up to the first level-3 or
level-1/level-2 heading line, the whole chunk stripped and put through
the size guard; when it does not occur, the window is the stripped trail
through the size guard. -/
theorem context_window_characterization (md_body h1 h2 h3raw : String) (mc : Nat) :
    (∀ pre l0 suf, pySplitlines (normalize_newlines md_body) = pre ++ l0 :: suf →
        matchHeading 3 l0 = some h3raw →
        (∀ l ∈ pre, matchHeading 3 l ≠ some h3raw) →
        (∀ l ∈ suf, matchHeading 3 l ≠ some h3raw) →
        extract_section_context md_body h1 h2 h3raw mc =
          truncateChunk (pyStrip (contextHeader h1 h2 h3raw ++
            String.intercalate "\n" (suf.takeWhile keepLine))) mc)
    ∧ ((∀ l ∈ pySplitlines (normalize_newlines md_body), matchHeading 3 l ≠ some h3raw) →
        extract_section_context md_body h1 h2 h3raw mc =
          truncateChunk (pyStrip (contextHeader h1 h2 h3raw)) mc) := by
  constructor
  · intro pre l0 suf hsplit hl0 hpre hsuf
    simp only [extract_section_context]
    rw [hsplit, sectionLoop_skip h3raw pre (l0 :: suf) hpre]
    have hstep : sectionLoop h3raw (l0 :: suf) false = (suf.takeWhile keepLine, true) := by
      simp only [sectionLoop, hl0, if_pos rfl]
      exact sectionLoop_collect h3raw suf hsuf
    rw [hstep]
    simp
  · intro hno
    simp only [extract_section_context]
    rw [sectionLoop_not_found h3raw _ hno]
    simp

/-- Witness for C6: a concrete section is windowed to its trail plus its
two body lines, stopping at the next level-2 heading. -/
theorem context_window_characterization_witness :
    extract_section_context "# H\n## S\n### T\nline1\nline2\n## X\nrest" "H" "S" "T" 12000 =
      truncateChunk (pyStrip (contextHeader "H" "S" "T" ++
        String.intercalate "\n"
          ((["line1", "line2", "## X", "rest"] : List String).takeWhile keepLine))) 12000 :=
  (context_window_characterization "# H\n## S\n### T\nline1\nline2\n## X\nrest" "H" "S" "T"
      12000).1
    ["# H", "## S"] "### T" ["line1", "line2", "## X", "rest"]
    (by decide) (by decide) (by decide) (by decide)

/-- Counterexample for C6: with the identical leaf heading occurring
twice, the code skips the second occurrence and keeps collecting, so the
window also contains the line after the duplicate — not only the lines
strictly between the leaf heading and the next level-3 heading line,
which would give the chunk without the final `c`. -/
theorem context_window_duplicate_heading :
    extract_section_context "### T\na\n### T\nc" "H1" "H2" "T" 12000
        = "# H1\n## H2\n### T\na\nc"
    ∧ ("# H1\n## H2\n### T\na\nc" : String) ≠ "# H1\n## H2\n### T\na" := by
  decide

/-! Orchestrator lemmas. -/

/-- The generation path issues either a single generation call or a
generation call followed by one repair call built from the fresh content
and its rejection reason — never anything else. -/
theorem generateFresh_calls_cases (cfg : Config) (gen : String → String → String)
    (body fileName : String) (st : RunState) (it : H3Item) :
    (generateFresh cfg gen body fileName st it).2.2 =
        [GenCall.generate (freshPrompt body it).1 (freshPrompt body it).2]
    ∨ (generateFresh cfg gen body fileName st it).2.2 =
        [GenCall.generate (freshPrompt body it).1 (freshPrompt body it).2,
         GenCall.repair (repairPromptOf cfg gen body it).1 (repairPromptOf cfg gen body it).2] := by
  simp only [generateFresh, repairPromptOf, freshQuality, freshContent]
  split_ifs <;> simp

/-- C3 (confirmed): when the freshly generated text fails the gate, the
repair call happens exactly when repair is enabled and the reason is
repair-eligible, and then exactly once, built from the original content,
title and reason; any other reason (or disabled repair) rejects with no
repair call; and a repaired text that still fails the gate ends in a
terminal rejection carrying both reasons, with nothing persisted.  In
every case the item's trace holds at most one repair call. -/
theorem bounded_repair (cfg : Config) (gen : String → String → String)
    (body fileName : String) (st : RunState) (it : H3Item)
    (hfail : (freshQuality cfg gen body it).1 = false) :
    repairCalls (processItem cfg gen body fileName st it).2.2 ≤ 1
    ∧ (cfg.repair = true → repairEligible (freshQuality cfg gen body it).2 = true →
        (generateFresh cfg gen body fileName st it).2.2 =
          [GenCall.generate (freshPrompt body it).1 (freshPrompt body it).2,
           GenCall.repair (repairPromptOf cfg gen body it).1 (repairPromptOf cfg gen body it).2])
    ∧ (cfg.repair = false ∨ repairEligible (freshQuality cfg gen body it).2 = false →
        (generateFresh cfg gen body fileName st it).2.2 =
          [GenCall.generate (freshPrompt body it).1 (freshPrompt body it).2]
        ∧ (generateFresh cfg gen body fileName st it).2.1 =
            Outcome.rejected (freshQuality cfg gen body it).2)
    ∧ (cfg.repair = true → repairEligible (freshQuality cfg gen body it).2 = true →
        (repairedQuality cfg gen body it).1 = false →
        (generateFresh cfg gen body fileName st it).2.1 =
          Outcome.rejected ((freshQuality cfg gen body it).2 ++ " | Repair falló: " ++
            (repairedQuality cfg gen body it).2)
        ∧ (generateFresh cfg gen body fileName st it).1.db = st.db) := by
  have hf : (quality_check (gen (freshPrompt body it).1 (freshPrompt body it).2)
      cfg.minWords).1 = false := hfail
  have hpc : (processItem cfg gen body fileName st it).2.2 = []
      ∨ (processItem cfg gen body fileName st it).2.2 =
          (generateFresh cfg gen body fileName st it).2.2 := by
    simp only [processItem]
    split
    · simp
    · split
      · split_ifs <;> simp
      · simp
  refine ⟨?_, ?_, ?_, ?_⟩
  · have hg := generateFresh_calls_cases cfg gen body fileName st it
    rcases hpc with h | h
    · simp [h, repairCalls]
    · rcases hg with h2 | h2 <;> simp [h, h2, repairCalls, List.filter]
  · intro hrep he
    have he' : repairEligible (quality_check
        (gen (freshPrompt body it).1 (freshPrompt body it).2) cfg.minWords).2 = true := he
    simp only [generateFresh, repairPromptOf, freshQuality, freshContent]
    simp only [hf, hrep, he', Bool.not_false, Bool.and_self, Bool.true_and, if_true]
    split_ifs <;> simp
  · intro hor
    have hcond : (!(quality_check (gen (freshPrompt body it).1 (freshPrompt body it).2)
        cfg.minWords).1 && cfg.repair && repairEligible (quality_check
        (gen (freshPrompt body it).1 (freshPrompt body it).2) cfg.minWords).2) = false := by
      rcases hor with h | h <;> simp [h, freshQuality, freshContent] at *
    simp only [generateFresh, freshQuality, freshContent]
    simp only [hcond, Bool.false_eq_true, if_false]
    simp [hf]
  · intro hrep he hfail2
    have he' : repairEligible (quality_check
        (gen (freshPrompt body it).1 (freshPrompt body it).2) cfg.minWords).2 = true := he
    have hf2 : (quality_check (gen (repairPromptOf cfg gen body it).1
        (repairPromptOf cfg gen body it).2) cfg.minWords).1 = false := hfail2
    simp only [generateFresh, repairPromptOf, freshQuality, freshContent] at hf2 ⊢
    simp only [hf, hrep, he', Bool.not_false, Bool.and_self, Bool.true_and, if_true]
    simp only [repairedQuality, repairedContent, repairPromptOf, freshQuality, freshContent]
    simp [hf2, hf]

set_option maxRecDepth 1000000 in
/-- Witness for C3: a short fresh answer triggers exactly one repair;
the still-short repaired answer ends in the combined terminal rejection
with nothing persisted. -/
theorem bounded_repair_witness :
    repairCalls (processItem cfg50 shortOracle "# A\n## B\n### T\nx" "d.md"
        (initState [] []) simpleItem).2.2 ≤ 1
    ∧ (generateFresh cfg50 shortOracle "# A\n## B\n### T\nx" "d.md"
          (initState [] []) simpleItem).2.1 =
        Outcome.rejected ((freshQuality cfg50 shortOracle "# A\n## B\n### T\nx" simpleItem).2
          ++ " | Repair falló: "
          ++ (repairedQuality cfg50 shortOracle "# A\n## B\n### T\nx" simpleItem).2)
    ∧ (generateFresh cfg50 shortOracle "# A\n## B\n### T\nx" "d.md"
          (initState [] []) simpleItem).1.db = (initState [] []).db :=
  ⟨(bounded_repair cfg50 shortOracle "# A\n## B\n### T\nx" "d.md"
      (initState [] []) simpleItem (by decide)).1,
   (bounded_repair cfg50 shortOracle "# A\n## B\n### T\nx" "d.md"
      (initState [] []) simpleItem (by decide)).2.2.2 rfl (by decide) (by decide)⟩

/-- C5 (confirmed): past the dedupe check, a cache hit is re-validated
with the current gate on the stored content: if it passes, the item goes
straight to persistence with no generation call; if it fails (or the
stored content is empty), the item is processed exactly as a cache miss,
beginning with a fresh generation call. -/
theorem cache_hit_revalidation (cfg : Config) (gen : String → String → String)
    (body fileName : String) (st : RunState) (it : H3Item) (record : CacheRecord)
    (hdup : post_exists st.db it.h3_title it.category = false)
    (hhit : cacheLookup st.cache (cache_path fileName it.h3_title it.category cfg.model)
      = some record) :
    ((pyStrip record.content ≠ "" ∧
        (quality_check (pyStrip record.content) cfg.minWords).1 = true) →
      processItem cfg gen body fileName st it =
        ({st with
            db := if cfg.dryRun then st.db
                  else insert_post st.db it.h3_title (pyStrip record.content) it.category,
            inserted := st.inserted + 1}, Outcome.cacheToDb, []))
    ∧ ((pyStrip record.content = "" ∨
        (quality_check (pyStrip record.content) cfg.minWords).1 = false) →
      processItem cfg gen body fileName st it = generateFresh cfg gen body fileName st it
      ∧ (processItem cfg gen body fileName st it).2.2.head? =
          some (GenCall.generate (freshPrompt body it).1 (freshPrompt body it).2)) := by
  constructor
  · intro hpass
    simp only [processItem, hdup, Bool.false_eq_true, if_false, hhit]
    simp [hpass.1, hpass.2]
  · intro hmiss
    have hgen : processItem cfg gen body fileName st it
        = generateFresh cfg gen body fileName st it := by
      simp only [processItem, hdup, Bool.false_eq_true, if_false, hhit]
      rcases hmiss with h | h
      · simp [h]
      · by_cases hz : pyStrip record.content = ""
        · simp [hz]
        · simp [hz, h]
    refine ⟨hgen, ?_⟩
    rw [hgen]
    rcases generateFresh_calls_cases cfg gen body fileName st it with h | h <;> simp [h]

set_option maxRecDepth 1000000 in
/-- Witness for C5: with a cached passing article, the item is persisted
from the cache with no generation call. -/
theorem cache_hit_revalidation_witness :
    processItem cfg3 alwaysGood "# A\n## B\n### T\nx" "d.md"
        (initState [] [(simpleKey, simpleRec)]) simpleItem =
      ({(initState [] [(simpleKey, simpleRec)]) with
          db := if cfg3.dryRun then (initState [] [(simpleKey, simpleRec)]).db
                else insert_post (initState [] [(simpleKey, simpleRec)]).db
                  simpleItem.h3_title (pyStrip simpleRec.content) simpleItem.category,
          inserted := (initState [] [(simpleKey, simpleRec)]).inserted + 1},
        Outcome.cacheToDb, []) :=
  (cache_hit_revalidation cfg3 alwaysGood "# A\n## B\n### T\nx" "d.md"
      (initState [] [(simpleKey, simpleRec)]) simpleItem simpleRec
      (by decide) (by decide)).1 ⟨by decide, by decide⟩

/-! Run-level lemmas for idempotence. -/

/-- An item whose (title, category) pair already exists is skipped with
no state change beyond the skip counter and no generation call. -/
theorem processItem_skip (cfg : Config) (gen : String → String → String)
    (body fileName : String) (st : RunState) (it : H3Item)
    (h : post_exists st.db it.h3_title it.category = true) :
    processItem cfg gen body fileName st it =
      ({st with skipped := st.skipped + 1}, Outcome.duplicateSkip, []) := by
  simp [processItem, h]

/-- The generation path leaves the table unchanged or appends exactly the
item's own (title, category) pair. -/
theorem generateFresh_db_cases (cfg : Config) (gen : String → String → String)
    (body fileName : String) (st : RunState) (it : H3Item) :
    (generateFresh cfg gen body fileName st it).1.db = st.db
    ∨ ∃ content, (generateFresh cfg gen body fileName st it).1.db =
        insert_post st.db it.h3_title content it.category := by
  simp only [generateFresh]
  split_ifs <;> first | exact Or.inl rfl | exact Or.inr ⟨_, rfl⟩

/-- One item step leaves the table unchanged or appends exactly its own
pair, and then only when the pair was absent. -/
theorem processItem_db_cases (cfg : Config) (gen : String → String → String)
    (body fileName : String) (st : RunState) (it : H3Item) :
    (processItem cfg gen body fileName st it).1.db = st.db
    ∨ (post_exists st.db it.h3_title it.category = false ∧
       ∃ content, (processItem cfg gen body fileName st it).1.db =
          insert_post st.db it.h3_title content it.category) := by
  by_cases h : post_exists st.db it.h3_title it.category = true
  · rw [processItem_skip cfg gen body fileName st it h]
    exact Or.inl rfl
  · have hfalse : post_exists st.db it.h3_title it.category = false := by
      cases hb : post_exists st.db it.h3_title it.category
      · rfl
      · exact absurd hb h
    have hcore : (processItem cfg gen body fileName st it).1.db = st.db
        ∨ ∃ content, (processItem cfg gen body fileName st it).1.db =
            insert_post st.db it.h3_title content it.category := by
      simp only [processItem, hfalse, Bool.false_eq_true, if_false]
      split
      · split_ifs <;>
          first
            | exact Or.inl rfl
            | exact Or.inr ⟨_, rfl⟩
            | exact generateFresh_db_cases cfg gen body fileName st it
      · exact generateFresh_db_cases cfg gen body fileName st it
    rcases hcore with hg | ⟨ct, hg⟩
    · exact Or.inl hg
    · exact Or.inr ⟨hfalse, ct, hg⟩

/-- One item step appends only rows whose pair was absent before it. -/
theorem processItem_db_append (cfg : Config) (gen : String → String → String)
    (body fileName : String) (st : RunState) (it : H3Item) :
    ∃ new, (processItem cfg gen body fileName st it).1.db = st.db ++ new ∧
      ∀ p ∈ new, post_exists st.db p.title p.category = false := by
  rcases processItem_db_cases cfg gen body fileName st it with h | ⟨hfalse, content, h⟩
  · exact ⟨[], by simp [h], by simp⟩
  · refine ⟨[⟨it.h3_title, content, it.category⟩], by simpa [insert_post] using h, ?_⟩
    intro p hp
    simp only [List.mem_singleton] at hp
    rw [hp]
    exact hfalse

/-- The item loop appends only rows absent at its start, and every
processed item whose pair was present at the start of the loop ends as a
duplicate skip with no generation calls. -/
theorem runItems_inv (cfg : Config) (gen : String → String → String)
    (body fileName : String) :
    ∀ (items : List H3Item) (st : RunState),
      (∃ new, (runItems cfg gen body fileName st items).1.db = st.db ++ new ∧
        ∀ p ∈ new, post_exists st.db p.title p.category = false)
      ∧ ∀ e ∈ (runItems cfg gen body fileName st items).2,
          post_exists st.db e.1.h3_title e.1.category = true →
            e.2.1 = Outcome.duplicateSkip ∧ e.2.2 = [] := by
  intro items
  induction items with
  | nil =>
    intro st
    exact ⟨⟨[], by simp [runItems], by simp⟩, by simp [runItems]⟩
  | cons it rest ih =>
    intro st
    by_cases hlim : cfg.limit ≠ 0 ∧ cfg.limit ≤ st.generated
    · refine ⟨⟨[], by simp [runItems, hlim], by simp⟩, ?_⟩
      intro e he
      simp [runItems, hlim] at he
    · have hrun : runItems cfg gen body fileName st (it :: rest)
          = ((runItems cfg gen body fileName
                (processItem cfg gen body fileName st it).1 rest).1,
             (it, (processItem cfg gen body fileName st it).2.1,
                (processItem cfg gen body fileName st it).2.2)
               :: (runItems cfg gen body fileName
                 (processItem cfg gen body fileName st it).1 rest).2) := by
        simp [runItems, hlim]
      obtain ⟨new1, hdb1, habs1⟩ := processItem_db_append cfg gen body fileName st it
      obtain ⟨⟨new2, hdb2, habs2⟩, htr⟩ := ih (processItem cfg gen body fileName st it).1
      have habs2' : ∀ p ∈ new2, post_exists st.db p.title p.category = false := by
        intro p hp
        cases hb : post_exists st.db p.title p.category
        · rfl
        · exfalso
          have hmono := post_exists_append st.db new1 _ _ hb
          rw [← hdb1] at hmono
          rw [habs2 p hp] at hmono
          exact absurd hmono (by decide)
      constructor
      · refine ⟨new1 ++ new2, ?_, ?_⟩
        · rw [hrun]
          simp only
          rw [hdb2, hdb1, List.append_assoc]
        · intro p hp
          rcases List.mem_append.mp hp with h | h
          · exact habs1 p h
          · exact habs2' p h
      · intro e he
        rw [hrun] at he
        rcases List.mem_cons.mp he with h | h
        · intro hpe
          rw [h] at hpe ⊢
          simp only at hpe
          rw [processItem_skip cfg gen body fileName st it hpe]
          exact ⟨rfl, rfl⟩
        · intro hpe
          apply htr e h
          have hmono := post_exists_append st.db new1 _ _ hpe
          rw [← hdb1] at hmono
          exact hmono

/-- The file loop appends only rows absent at its start, and every
processed item whose pair was present at the start of the run ends as a
duplicate skip with no generation calls. -/
theorem runFiles_inv (cfg : Config) (gen : String → String → String) :
    ∀ (docs : List (String × String)) (st : RunState),
      (∃ new, (runFiles cfg gen st docs).1.db = st.db ++ new ∧
        ∀ p ∈ new, post_exists st.db p.title p.category = false)
      ∧ ∀ e ∈ (runFiles cfg gen st docs).2,
          post_exists st.db e.1.h3_title e.1.category = true →
            e.2.1 = Outcome.duplicateSkip ∧ e.2.2 = [] := by
  intro docs
  induction docs with
  | nil =>
    intro st
    exact ⟨⟨[], by simp [runFiles], by simp⟩, by simp [runFiles]⟩
  | cons doc rest ih =>
    intro st
    rcases doc with ⟨fileName, raw⟩
    obtain ⟨⟨new1, hdb1, habs1⟩, htr1⟩ :=
      runItems_inv cfg gen (extract_front_matter raw).2 fileName
        (extract_h3_items (extract_front_matter raw).2 fileName) st
    by_cases hlim : cfg.limit ≠ 0 ∧ cfg.limit ≤
        (runItems cfg gen (extract_front_matter raw).2 fileName st
          (extract_h3_items (extract_front_matter raw).2 fileName)).1.generated
    · have hrun : runFiles cfg gen st ((fileName, raw) :: rest)
          = runItems cfg gen (extract_front_matter raw).2 fileName st
              (extract_h3_items (extract_front_matter raw).2 fileName) := by
        simp [runFiles, hlim]
      rw [hrun]
      exact ⟨⟨new1, hdb1, habs1⟩, htr1⟩
    · have hrun : runFiles cfg gen st ((fileName, raw) :: rest)
          = ((runFiles cfg gen
                (runItems cfg gen (extract_front_matter raw).2 fileName st
                  (extract_h3_items (extract_front_matter raw).2 fileName)).1 rest).1,
             (runItems cfg gen (extract_front_matter raw).2 fileName st
                (extract_h3_items (extract_front_matter raw).2 fileName)).2
               ++ (runFiles cfg gen
                 (runItems cfg gen (extract_front_matter raw).2 fileName st
                   (extract_h3_items (extract_front_matter raw).2 fileName)).1 rest).2) := by
        simp [runFiles, hlim]
      obtain ⟨⟨new2, hdb2, habs2⟩, htr2⟩ :=
        ih (runItems cfg gen (extract_front_matter raw).2 fileName st
          (extract_h3_items (extract_front_matter raw).2 fileName)).1
      have habs2' : ∀ p ∈ new2, post_exists st.db p.title p.category = false := by
        intro p hp
        cases hb : post_exists st.db p.title p.category
        · rfl
        · exfalso
          have hmono := post_exists_append st.db new1 _ _ hb
          rw [← hdb1] at hmono
          rw [habs2 p hp] at hmono
          exact absurd hmono (by decide)
      constructor
      · refine ⟨new1 ++ new2, ?_, ?_⟩
        · rw [hrun]
          simp only
          rw [hdb2, hdb1, List.append_assoc]
        · intro p hp
          rcases List.mem_append.mp hp with h | h
          · exact habs1 p h
          · exact habs2' p h
      · intro e he
        rw [hrun] at he
        rcases List.mem_append.mp he with h | h
        · exact htr1 e h
        · intro hpe
          apply htr2 e h
          have hmono := post_exists_append st.db new1 _ _ hpe
          rw [← hdb1] at hmono
          exact hmono

/-- C1 (corrected): every leaf item processed by the second run whose
(title, category) pair is in the table after the first run passes the
existence check and terminates as a duplicate skip, with no generation
call and no insert; every row the second run does insert has a pair that
was absent after the first run. -/
theorem second_run_skips_persisted (cfg : Config) (gen : String → String → String)
    (docs : List (String × String)) (st0 st1 : RunState)
    (tr1 : List (H3Item × Outcome × List GenCall))
    (hrun1 : runFiles cfg gen st0 docs = (st1, tr1))
    (st2 : RunState) (tr2 : List (H3Item × Outcome × List GenCall))
    (hrun2 : runFiles cfg gen (initState st1.db st1.cache) docs = (st2, tr2)) :
    (∃ new, st2.db = st1.db ++ new ∧
      ∀ p ∈ new, post_exists st1.db p.title p.category = false)
    ∧ ∀ e ∈ tr2, post_exists st1.db e.1.h3_title e.1.category = true →
        e.2.1 = Outcome.duplicateSkip ∧ e.2.2 = [] := by
  have h := runFiles_inv cfg gen docs (initState st1.db st1.cache)
  rw [hrun2] at h
  exact h

set_option maxRecDepth 1000000 in
/-- Witness for C1: the one item persisted by the first run over the
simple document is skipped as a duplicate by the second run, with no
generation call. -/
theorem second_run_skips_persisted_witness :
    (simpleItem, Outcome.duplicateSkip, ([] : List GenCall)).2.1 = Outcome.duplicateSkip
    ∧ (simpleItem, Outcome.duplicateSkip, ([] : List GenCall)).2.2 = [] :=
  (second_run_skips_persisted cfg3 alwaysGood simpleDocs (initState [] [])
      (runFiles cfg3 alwaysGood (initState [] []) simpleDocs).1
      (runFiles cfg3 alwaysGood (initState [] []) simpleDocs).2 rfl
      (runFiles cfg3 alwaysGood
        (initState (runFiles cfg3 alwaysGood (initState [] []) simpleDocs).1.db
          (runFiles cfg3 alwaysGood (initState [] []) simpleDocs).1.cache) simpleDocs).1
      (runFiles cfg3 alwaysGood
        (initState (runFiles cfg3 alwaysGood (initState [] []) simpleDocs).1.db
          (runFiles cfg3 alwaysGood (initState [] []) simpleDocs).1.cache) simpleDocs).2 rfl).2
    (simpleItem, Outcome.duplicateSkip, []) (by decide) (by decide)

set_option maxRecDepth 1000000 in
/-- Counterexample for C1: over the collision document the first run
persists one post (the second item) and rejects the first item; the
second run then persists one additional post — the first item picks up
the colliding cache record written by the second item, passes the gate
re-validation, and is inserted — so the second run does not produce zero
additional persisted posts. -/
theorem pipeline_second_run_inserts :
    (runFiles cfg3 collisionOracle
        (initState (runFiles cfg3 collisionOracle (initState [] []) collisionDocs).1.db
          (runFiles cfg3 collisionOracle (initState [] []) collisionDocs).1.cache)
        collisionDocs).1.db.length
      = (runFiles cfg3 collisionOracle (initState [] []) collisionDocs).1.db.length + 1 := by
  decide

end Blog
